import Mathlib

/-!
Verification of `image_stitch.py` (Sovexe/image_stitch).

The script's single function `stitch_images` is shallowly embedded below.
Images are modelled as a dimension pair together with a pixel map
(row-major RGBA values, each channel a natural number, as in PIL's
`"RGBA"` mode).  Filesystem and process effects (removing the existing
output file, allocating the canvas, pasting, `os.makedirs`, saving,
`pngquant`, moving the temporary file) are recorded as an event trace,
and the final result is an `Outcome` (user cancellation, a failed
`assert`, an uncaught `OSError` from `os.makedirs`, or the composed
canvas).
-/

namespace ImageStitch

/-- RGBA pixel: (red, green, blue, alpha), each in 0..255 as in PIL. -/
abbrev RGBA := Nat × Nat × Nat × Nat

/-- Red, green, blue components of a pixel: Python's `item[:3]`. -/
def rgb3 (p : RGBA) : Nat × Nat × Nat := (p.1, p.2.1, p.2.2.1)

/-- Alpha component of a pixel (`item[3]`). -/
def alphaOf (p : RGBA) : Nat := p.2.2.2

/-- Fully transparent pixel, Python's `(0, 0, 0, 0)`. -/
def transparent : RGBA := (0, 0, 0, 0)

/-- A decoded image: intrinsic pixel width/height and the pixel map.
`pix x y` is the RGBA value at column `x`, row `y` (only coordinates with
`x < width`, `y < height` are meaningful). -/
structure Img where
  width : Nat
  height : Nat
  pix : Nat → Nat → RGBA

/-- Code-point lexicographic `<` on character lists: how Python compares
`str` values, hence how `sorted(glob.glob(...))` orders the paths. -/
def lexLt : List Char → List Char → Bool
  | [], [] => false
  | [], _ :: _ => true
  | _ :: _, [] => false
  | a :: as, b :: bs =>
    if a.toNat < b.toNat then true
    else if b.toNat < a.toNat then false
    else lexLt as bs

/-- Lexicographic `≤` on paths (`a ≤ b` iff not `b < a`), the order used by
Python's `sorted` on the glob result. -/
def pathLe (a b : String) : Bool := !(lexLt b.data a.data)

/-- Lowercase an ASCII character; the only behaviour of Python's
`str.lower` that the overwrite prompt (`response.lower() != 'y'`) can
observe. -/
def lowerChar (c : Char) : Char :=
  if 64 < c.toNat && c.toNat < 91 then Char.ofNat (c.toNat + 32) else c

/-- Models Python's `response.lower()` on the prompt reply (ASCII case
folding, which is all the `!= 'y'` comparison depends on). -/
def strLower (s : String) : String := String.mk (s.data.map lowerChar)

/-- Insert one `(path, image)` pair into a path-sorted list, keeping it
sorted: helper for the model of `sorted(...)`. -/
def insertFile (p : String × Img) : List (String × Img) → List (String × Img)
  | [] => [p]
  | q :: rest => if pathLe p.1 q.1 then p :: q :: rest else q :: insertFile p rest

/-- Models `sorted(glob.glob(f"{directory}/*.png"))`: the directory's
`.png` entries sorted by lexicographic path order (insertion sort; Python
`sorted` is a stable sort over the same total order, producing the same
list). -/
def sortFiles : List (String × Img) → List (String × Img)
  | [] => []
  | p :: rest => insertFile p (sortFiles rest)

/-- Models the sizing pass
`for img_file in image_files: max_image_size = max(max_image_size, max(img.size))`
starting from `max_image_size = 0`; `max(img.size)` is
`max(width, height)`. -/
def maxImageSize (files : List (String × Img)) : Nat :=
  files.foldl (fun acc f => max acc (max f.2.width f.2.height)) 0

/-- Characters of `os.path.dirname`: everything strictly before the last
`'/'` of the path (empty when the path has no `'/'`). -/
def dirChars : List Char → List Char
  | [] => []
  | c :: rest => if '/' ∈ rest then c :: dirChars rest else []

/-- Models `os.path.dirname(path)` for POSIX paths. -/
def dirname (p : String) : String := String.mk (dirChars p.data)

/-- Row `y` of an image restricted to the first `n` columns; `rowData img y w`
is row `y` as produced by PIL's row-major `getdata()`. -/
def rowData (img : Img) (y : Nat) : Nat → List RGBA
  | 0 => []
  | n + 1 => rowData img y n ++ [img.pix n y]

/-- The first `n` rows of the image, concatenated in row-major order. -/
def imgRows (img : Img) : Nat → List RGBA
  | 0 => []
  | n + 1 => imgRows img n ++ rowData img n img.width

/-- Models `img.getdata()`: the full pixel sequence in row-major order. -/
def getdata (img : Img) : List RGBA := imgRows img img.height

/-- Models `img.putdata(new_data)`: the image's pixels are replaced by the
given row-major sequence (dimensions unchanged). -/
def putdata (img : Img) (d : List RGBA) : Img :=
  { img with pix := fun x y => d.getD (y * img.width + x) transparent }

/-- Models the body of the chroma-key loop: each `item` with
`item[:3] == tuple(colorkey)` is appended as the transparent pixel
`(0, 0, 0, 0)`, every other `item` is appended unchanged. -/
def newData (key : Nat × Nat × Nat) : List RGBA → List RGBA
  | [] => []
  | item :: rest =>
    (if rgb3 item = key then transparent else item) :: newData key rest

/-- Models the chroma-key block: `img = img.convert("RGBA")` (the identity
on images already modelled as RGBA), then `getdata` / rebuild `new_data` /
`putdata`. -/
def processImg (key : Nat × Nat × Nat) (img : Img) : Img :=
  putdata img (newData key (getdata img))

/-- Models `fill_image.resize((w, h))`.  Only the output dimensions and
the existence of a definite per-pixel value matter to the verified claims;
the resampling kernel (PIL defaults to bicubic) is abstracted as
nearest-neighbour sampling. -/
def resize (img : Img) (w h : Nat) : Img :=
  { width := w, height := h
    pix := fun x y => img.pix (x * img.width / w) (y * img.height / h) }

/-- Models `result.paste(src, (px, py))` with no mask (the fill-image
paste): every pixel of the source region replaces the canvas pixel. -/
def pasteFull (canvas src : Img) (px py : Nat) : Img :=
  { canvas with
    pix := fun x y =>
      if px ≤ x ∧ x < px + src.width ∧ py ≤ y ∧ y < py + src.height then
        src.pix (x - px) (y - py)
      else canvas.pix x y }

/-- One channel of alpha interpolation: source over destination weighted
by the 0..255 mask value `a` (at `a = 255` this is the source channel, at
`a = 0` the destination channel, matching PIL's mask semantics at the
extremes the claims depend on). -/
def blend (a s d : Nat) : Nat := (s * a + d * (255 - a)) / 255

/-- A source pixel composited over a destination pixel, masked by the
source's own alpha. -/
def overPix (sp dp : RGBA) : RGBA :=
  (blend (alphaOf sp) sp.1 dp.1, blend (alphaOf sp) sp.2.1 dp.2.1,
    blend (alphaOf sp) sp.2.2.1 dp.2.2.1, blend (alphaOf sp) sp.2.2.2 dp.2.2.2)

/-- Models `result.paste(img, (px, py), mask=img)`: inside the source
region the source's own alpha channel is the paste mask — alpha 255
replaces, alpha 0 keeps the canvas pixel, intermediate values
interpolate; outside the region the canvas is untouched. -/
def pasteMask (canvas src : Img) (px py : Nat) : Img :=
  { canvas with
    pix := fun x y =>
      if px ≤ x ∧ x < px + src.width ∧ py ≤ y ∧ y < py + src.height then
        overPix (src.pix (x - px) (y - py)) (canvas.pix x y)
      else canvas.pix x y }

/-- The arguments of `stitch_images` together with the observable state it
consults: whether `os.path.exists(output)` holds, the user's reply to the
overwrite prompt, and the directory's `.png` entries (path and decoded
image) that `glob.glob(f"{directory}/*.png")` would return. -/
structure Cfg where
  outputExists : Bool
  response : String
  dirFiles : List (String × Img)
  output : String
  fill : Option Img
  reduce : Bool
  colorkey : Option (Nat × Nat × Nat)
  process_colorkey : Bool
  grid_rows : Nat
  grid_cols : Nat

/-- The filesystem / process effects `stitch_images` performs, in order:
`os.remove(output)`, `Image.new` canvas allocation, the two pastes of the
loop body, `os.makedirs`, `result.save(temp_file)`, the `pngquant`
subprocess, `shutil.move`, and `os.remove(temp_file)`. -/
inductive Ev where
  | removeOutput : Ev
  | allocCanvas (w h : Nat) : Ev
  | pasteFill (i x y : Nat) : Ev
  | pasteImage (i : Nat) (path : String) (x y : Nat) : Ev
  | makeDirs (d : String) : Ev
  | saveTemp : Ev
  | runPngquant : Ev
  | moveTemp : Ev
  | removeTemp : Ev
deriving DecidableEq

/-- How a run of `stitch_images` ends: `cancelled` is the clean
`sys.exit()` after a declined overwrite prompt; `configError` is a failed
`assert` (an `AssertionError` with the given message); `osError` is the
uncaught exception out of `os.makedirs`; `done` carries the composed
canvas that was saved. -/
inductive Outcome where
  | cancelled : Outcome
  | configError (msg : String) : Outcome
  | osError (msg : String) : Outcome
  | done (canvas : Img) : Outcome

/-- The image actually pasted for one source file: chroma-keyed when
`process_colorkey and colorkey` holds (the colorkey argument is a 3-item
list, truthy exactly when present), otherwise the image unchanged. -/
def pastedOf (cfg : Cfg) (img : Img) : Img :=
  match cfg.process_colorkey, cfg.colorkey with
  | true, some k => processImg k img
  | _, _ => img

/-- One iteration of the paste loop at index `i`: compute
`x_pos = (i % grid_cols) * cell_size`, `y_pos = (i // grid_cols) * cell_size`,
chroma-key if requested, paste the fill image (if any) at the cell offset,
then paste the source image with itself as mask.  Returns the updated
canvas and the events of this iteration. -/
def stepImage (cfg : Cfg) (cellSize : Nat) (fillR : Option Img) (i : Nat)
    (f : String × Img) (canvas : Img) : Img × List Ev :=
  let x := (i % cfg.grid_cols) * cellSize
  let y := (i / cfg.grid_cols) * cellSize
  let img := pastedOf cfg f.2
  match fillR with
  | some fr =>
    (pasteMask (pasteFull canvas fr x y) img x y,
      [Ev.pasteFill i x y, Ev.pasteImage i f.1 x y])
  | none => (pasteMask canvas img x y, [Ev.pasteImage i f.1 x y])

/-- Models `for i, img_file in enumerate(image_files): ...` starting the
enumeration at index `k`: folds `stepImage` over the files, collecting the
canvas and the event trace. -/
def runLoop (cfg : Cfg) (cellSize : Nat) (fillR : Option Img) :
    Nat → List (String × Img) → Img → Img × List Ev
  | _, [], canvas => (canvas, [])
  | k, f :: rest, canvas =>
    let st := stepImage cfg cellSize fillR k f canvas
    let rec' := runLoop cfg cellSize fillR (k + 1) rest st.1
    (rec'.1, st.2 ++ rec'.2)

/-- The transparent RGBA canvas `Image.new('RGBA', (w, h))`. -/
def mkCanvas (w h : Nat) : Img :=
  { width := w, height := h, pix := fun _ _ => transparent }

/-- The canvas after the whole paste loop: sorted files, cell size from
the sizing pass, `Image.new` canvas of `(cell_size * grid_cols,
cell_size * grid_rows)`, fill image resized to `(cell_size, cell_size)`
when provided, then the loop from index 0. -/
def loopResult (cfg : Cfg) : Img × List Ev :=
  let image_files := sortFiles cfg.dirFiles
  let cell_size := maxImageSize image_files
  let canvas := mkCanvas (cell_size * cfg.grid_cols) (cell_size * cfg.grid_rows)
  let fillR := cfg.fill.map (fun fi => resize fi cell_size cell_size)
  runLoop cfg cell_size fillR 0 image_files canvas

/-- The composed in-memory canvas of a run. -/
def composed (cfg : Cfg) : Img := (loopResult cfg).1

/-- Shallow embedding of `stitch_images`: the overwrite prompt and
`os.remove`, the glob-and-sort, the two `assert` statements, the sizing
pass, canvas allocation, the paste loop, `os.makedirs(os.path.dirname(output),
exist_ok=True)` — which raises `FileNotFoundError` when the directory
component is empty, even with `exist_ok=True` — then save, optional
`pngquant`, move, and temp cleanup.  Returns the outcome and the ordered
event trace. -/
def stitch_images (cfg : Cfg) : Outcome × List Ev :=
  if cfg.outputExists && (strLower cfg.response != "y") then
    (Outcome.cancelled, [])
  else
    let ev0 : List Ev := if cfg.outputExists then [Ev.removeOutput] else []
    let image_files := sortFiles cfg.dirFiles
    let num_images := image_files.length
    if num_images = 0 then
      (Outcome.configError "No input images found in the directory.", ev0)
    else
      let num_cells := cfg.grid_rows * cfg.grid_cols
      if num_cells < num_images then
        (Outcome.configError "Number of images exceeds the grid capacity.", ev0)
      else
        let cell_size := maxImageSize image_files
        let lr := loopResult cfg
        let evA := ev0 ++
          [Ev.allocCanvas (cell_size * cfg.grid_cols) (cell_size * cfg.grid_rows)]
          ++ lr.2
        let d := dirname cfg.output
        if d = "" then
          (Outcome.osError "FileNotFoundError: makedirs with empty path", evA)
        else
          let evB := evA ++ [Ev.makeDirs d, Ev.saveTemp]
          if cfg.reduce then
            (Outcome.done lr.1, evB ++ [Ev.runPngquant, Ev.removeTemp])
          else
            (Outcome.done lr.1, evB ++ [Ev.moveTemp])

/-! Concrete images and configurations used to instantiate the theorems. -/

/-- Sort key of the model's file sort: lexicographic path order. -/
def fileLe (a b : String × Img) : Prop := pathLe a.1 b.1 = true

/-- Recognises the source-image paste events of a trace. -/
def isPasteImage : Ev → Bool
  | Ev.pasteImage _ _ _ _ => true
  | _ => false

/-- A 2×3 image. -/
def imgA : Img := { width := 2, height := 3, pix := fun _ _ => (10, 20, 30, 255) }

/-- A 2×5 image: same as `imgA` with the larger dimension increased. -/
def imgB : Img := { width := 2, height := 5, pix := fun _ _ => (10, 20, 30, 255) }

/-- A 2×1 image: pixel (0,0) carries the default key colour (with a
nonzero alpha), pixel (1,0) a colour one off the key. -/
def imgKey : Img :=
  { width := 2, height := 1
    pix := fun x _ => if x = 0 then (255, 0, 228, 77) else (255, 0, 227, 255) }

/-- A 1×1 fill image. -/
def imgFill : Img := { width := 1, height := 1, pix := fun _ _ => (9, 8, 7, 255) }

/-- A 2×1 source image: opaque pixel at x = 0, fully transparent at x = 1. -/
def imgHalf : Img :=
  { width := 2, height := 1
    pix := fun x _ => if x = 0 then (1, 2, 3, 255) else (0, 0, 0, 0) }

/-- Configuration where the output file exists and the user answers "n". -/
def cfgDecline : Cfg :=
  { outputExists := true, response := "n", dirFiles := [("a.png", imgA)]
    output := "out/result.png", fill := none, reduce := false
    colorkey := none, process_colorkey := false, grid_rows := 10, grid_cols := 10 }

/-- Configuration where the output exists, the user confirms, and the run
then fails the empty-directory assert: the original file is already gone. -/
def cfgConfirm : Cfg :=
  { outputExists := true, response := "y", dirFiles := []
    output := "out/result.png", fill := none, reduce := false
    colorkey := none, process_colorkey := false, grid_rows := 10, grid_cols := 10 }

/-- Directory with five images for the over-capacity case. -/
def fiveFiles : List (String × Img) :=
  [("a.png", imgA), ("b.png", imgA), ("c.png", imgA), ("d.png", imgA), ("e.png", imgA)]

/-- Five images into a 2×2 grid. -/
def cfgOver : Cfg :=
  { outputExists := false, response := "", dirFiles := fiveFiles
    output := "out/result.png", fill := none, reduce := false
    colorkey := none, process_colorkey := false, grid_rows := 2, grid_cols := 2 }

/-- Configuration whose output path has no directory component, as happens
for the default `output.png` when the script is invoked from its own
directory (`os.path.dirname(__file__)` is empty). -/
def cfgBare : Cfg :=
  { outputExists := false, response := "", dirFiles := [("a.png", imgA)]
    output := "output.png", fill := none, reduce := false
    colorkey := none, process_colorkey := false, grid_rows := 10, grid_cols := 10 }

/-- Chroma-keying enabled with the default key 255,0,228. -/
def cfgKey : Cfg :=
  { outputExists := false, response := "", dirFiles := [("a.png", imgKey)]
    output := "out/r.png", fill := none, reduce := false
    colorkey := some (255, 0, 228), process_colorkey := true
    grid_rows := 10, grid_cols := 10 }

/-- Configuration with a single 2×3 image on a 10×10 grid. -/
def cfgOne : Cfg :=
  { outputExists := false, response := "", dirFiles := [("a.png", imgA)]
    output := "out/r.png", fill := none, reduce := false
    colorkey := none, process_colorkey := false, grid_rows := 10, grid_cols := 10 }

/-- Directory listed out of order: "b.png" before "a.png". -/
def cfgTwo : Cfg :=
  { outputExists := false, response := "", dirFiles := [("b.png", imgA), ("a.png", imgB)]
    output := "out/r.png", fill := none, reduce := false
    colorkey := none, process_colorkey := false, grid_rows := 2, grid_cols := 2 }

/-- Fill image configured, single source image. -/
def cfgFill : Cfg :=
  { outputExists := false, response := "", dirFiles := [("a.png", imgHalf)]
    output := "out/r.png", fill := some imgFill, reduce := false
    colorkey := none, process_colorkey := false, grid_rows := 10, grid_cols := 10 }

/-! Lemmas about the sizing pass. -/

lemma maxImageSize_foldl (l : List (String × Img)) (a : Nat) :
    List.foldl (fun acc f => max acc (max f.2.width f.2.height)) a l =
      max a (maxImageSize l) := by
  induction l generalizing a with
  | nil => simp [maxImageSize]
  | cons f rest ih =>
    have h0 : maxImageSize (f :: rest) =
        max (max f.2.width f.2.height) (maxImageSize rest) := by
      show List.foldl _ (max 0 (max f.2.width f.2.height)) rest = _
      rw [ih]; simp
    simp only [List.foldl_cons]
    rw [ih, h0, max_assoc]

lemma maxImageSize_cons (f : String × Img) (rest : List (String × Img)) :
    maxImageSize (f :: rest) = max (max f.2.width f.2.height) (maxImageSize rest) := by
  show List.foldl _ (max 0 (max f.2.width f.2.height)) rest = _
  rw [maxImageSize_foldl]; simp

lemma dimMax_le_maxImageSize {g : String × Img} {l : List (String × Img)}
    (hg : g ∈ l) : max g.2.width g.2.height ≤ maxImageSize l := by
  induction l with
  | nil => cases hg
  | cons f rest ih =>
    rw [maxImageSize_cons]
    rcases List.mem_cons.mp hg with h | h
    · subst h; exact le_max_left _ _
    · exact le_trans (ih h) (le_max_right _ _)

lemma maxImageSize_attained {l : List (String × Img)} (h : l ≠ []) :
    ∃ g ∈ l, maxImageSize l = max g.2.width g.2.height := by
  induction l with
  | nil => exact absurd rfl h
  | cons f rest ih =>
    rw [maxImageSize_cons]
    rcases eq_or_ne rest [] with hrest | hrest
    · subst hrest
      exact ⟨f, List.mem_cons_self f [], by simp [maxImageSize]⟩
    · rcases ih hrest with ⟨g, hgmem, hgeq⟩
      rcases le_total (maxImageSize rest) (max f.2.width f.2.height) with hle | hle
      · exact ⟨f, List.mem_cons_self f rest, (max_eq_left hle)⟩
      · exact ⟨g, List.mem_cons_of_mem f hgmem, by rw [max_eq_right hle, hgeq]⟩

lemma maxImageSize_append (l₁ l₂ : List (String × Img)) :
    maxImageSize (l₁ ++ l₂) = max (maxImageSize l₁) (maxImageSize l₂) := by
  induction l₁ with
  | nil => simp [maxImageSize]
  | cons f rest ih =>
    rw [List.cons_append, maxImageSize_cons, ih, maxImageSize_cons]
    exact (max_assoc (max f.2.width f.2.height) (maxImageSize rest) (maxImageSize l₂)).symm

/-- C1: the computed CellSize (`max_image_size` after the sizing loop) is an
upper bound on every image's larger dimension, is attained by some image,
and grows monotonically when a single image's larger dimension grows. -/
theorem cellSize_is_max_and_monotone (l₁ l₂ : List (String × Img)) (f f' : String × Img)
    (h : max f.2.width f.2.height ≤ max f'.2.width f'.2.height) :
    (∀ g ∈ l₁ ++ f :: l₂, max g.2.width g.2.height ≤ maxImageSize (l₁ ++ f :: l₂)) ∧
    (∃ g ∈ l₁ ++ f :: l₂, maxImageSize (l₁ ++ f :: l₂) = max g.2.width g.2.height) ∧
    maxImageSize (l₁ ++ f :: l₂) ≤ maxImageSize (l₁ ++ f' :: l₂) := by
  refine ⟨fun g hg => dimMax_le_maxImageSize hg, maxImageSize_attained (by simp), ?_⟩
  rw [maxImageSize_append, maxImageSize_append, maxImageSize_cons, maxImageSize_cons]
  exact max_le_max le_rfl (max_le_max h le_rfl)

theorem cellSize_is_max_and_monotone_witness :
    (∀ g ∈ [("a.png", imgA)], max g.2.width g.2.height ≤ maxImageSize [("a.png", imgA)]) ∧
    (∃ g ∈ [("a.png", imgA)], maxImageSize [("a.png", imgA)] = max g.2.width g.2.height) ∧
    maxImageSize [("a.png", imgA)] ≤ maxImageSize [("a.png", imgB)] :=
  cellSize_is_max_and_monotone [] [] ("a.png", imgA) ("a.png", imgB) (by decide)

/-! Claims about the prompt, the asserts and `os.makedirs`. -/

/-- C8: with the output file present and the user's reply not lowercasing
to `"y"`, the run ends in the clean `sys.exit()` outcome with an empty
effect trace: nothing on the filesystem is touched. -/
theorem decline_overwrite_clean_abort (cfg : Cfg)
    (hex : cfg.outputExists = true) (hresp : strLower cfg.response ≠ "y") :
    stitch_images cfg = (Outcome.cancelled, []) := by
  have hb : (strLower cfg.response != "y") = true := by
    simpa using hresp
  unfold stitch_images
  rw [hex, hb]
  simp

theorem decline_overwrite_clean_abort_witness :
    strLower cfgDecline.response ≠ "y" ∧
    stitch_images cfgDecline = (Outcome.cancelled, []) :=
  ⟨by decide, decline_overwrite_clean_abort cfgDecline rfl (by decide)⟩

/-- C10: with the output file present and the user confirming, the very
first effect of the run is `os.remove(output)` — before the glob, the
two validating asserts, and all decoding — whatever happens later. -/
theorem overwrite_removed_before_validation (cfg : Cfg)
    (hex : cfg.outputExists = true) (hresp : strLower cfg.response = "y") :
    ((stitch_images cfg).2).head? = some Ev.removeOutput := by
  have hb : (strLower cfg.response != "y") = false := by simp [hresp]
  unfold stitch_images
  rw [hex, hb]
  simp only [Bool.and_false, Bool.false_eq_true, if_false]
  split
  · simp
  · split
    · simp
    · split
      · simp
      · split <;> simp

theorem overwrite_removed_before_validation_witness :
    strLower cfgConfirm.response = "y" ∧
    ((stitch_images cfgConfirm).2).head? = some Ev.removeOutput :=
  ⟨by decide, overwrite_removed_before_validation cfgConfirm rfl (by decide)⟩

/-- C7: when the overwrite prompt does not abort the run, an empty match
list fails with the no-images assert and an over-capacity match list fails
with the capacity assert; in both cases the only effect that may have
happened is the `os.remove` of the old output — no canvas allocation, no
paste, no directory creation. -/
theorem config_errors_before_canvas_work (cfg : Cfg)
    (hg : (cfg.outputExists && (strLower cfg.response != "y")) = false) :
    ((sortFiles cfg.dirFiles).length = 0 →
      (stitch_images cfg).1 = Outcome.configError "No input images found in the directory." ∧
      ∀ e ∈ (stitch_images cfg).2, e = Ev.removeOutput) ∧
    (cfg.grid_rows * cfg.grid_cols < (sortFiles cfg.dirFiles).length →
      (stitch_images cfg).1 = Outcome.configError "Number of images exceeds the grid capacity." ∧
      ∀ e ∈ (stitch_images cfg).2, e = Ev.removeOutput) := by
  unfold stitch_images
  rw [hg]
  simp only [Bool.false_eq_true, if_false]
  constructor
  · intro h0
    rw [if_pos h0]
    exact ⟨rfl, by cases h : cfg.outputExists <;> simp [h]⟩
  · intro hover
    have h0 : ¬ (sortFiles cfg.dirFiles).length = 0 := by omega
    rw [if_neg h0, if_pos hover]
    exact ⟨rfl, by cases h : cfg.outputExists <;> simp [h]⟩

theorem config_errors_before_canvas_work_witness :
    (cfgOver.outputExists && (strLower cfgOver.response != "y")) = false ∧
    (cfgOver.grid_rows * cfgOver.grid_cols < (sortFiles cfgOver.dirFiles).length →
      (stitch_images cfgOver).1 = Outcome.configError "Number of images exceeds the grid capacity." ∧
      ∀ e ∈ (stitch_images cfgOver).2, e = Ev.removeOutput) :=
  ⟨by decide, (config_errors_before_canvas_work cfgOver (by decide)).2⟩

/-- C9 (code bug): on an output path with no directory component,
`os.path.dirname` is empty and `os.makedirs("", exist_ok=True)` raises
`FileNotFoundError`, so the run aborts instead of persisting the canvas
to the (existing) current directory. -/
theorem makedirs_fails_on_bare_output_path :
    dirname cfgBare.output = "" ∧
    (stitch_images cfgBare).1 = Outcome.osError "FileNotFoundError: makedirs with empty path" :=
  ⟨rfl, rfl⟩

/-! Row-major indexing of `getdata` and the chroma-key transform. -/

lemma rowData_length (img : Img) (y n : Nat) : (rowData img y n).length = n := by
  induction n with
  | zero => rfl
  | succ n ih => simp [rowData, ih]

lemma rowData_getElem? (img : Img) (y : Nat) {n x : Nat} (hx : x < n) :
    (rowData img y n)[x]? = some (img.pix x y) := by
  induction n with
  | zero => omega
  | succ n ih =>
    rcases Nat.lt_or_ge x n with h | h
    · rw [rowData, List.getElem?_append_left (by rw [rowData_length]; exact h)]
      exact ih h
    · have hx' : x = n := by omega
      subst hx'
      rw [rowData, List.getElem?_append_right (by rw [rowData_length])]
      simp [rowData_length]

lemma imgRows_length (img : Img) (n : Nat) : (imgRows img n).length = n * img.width := by
  induction n with
  | zero => simp [imgRows]
  | succ n ih => simp [imgRows, rowData_length, ih, Nat.succ_mul]

lemma imgRows_getElem? (img : Img) {n y x : Nat} (hy : y < n) (hx : x < img.width) :
    (imgRows img n)[y * img.width + x]? = some (img.pix x y) := by
  induction n with
  | zero => omega
  | succ n ih =>
    rcases Nat.lt_or_ge y n with h | h
    · rw [imgRows, List.getElem?_append_left]
      · exact ih h
      · rw [imgRows_length]
        calc y * img.width + x < y * img.width + img.width := by omega
          _ = (y + 1) * img.width := by ring
          _ ≤ n * img.width := Nat.mul_le_mul_right _ (by omega)
    · have hyn : y = n := by omega
      subst hyn
      rw [imgRows, List.getElem?_append_right (by rw [imgRows_length]; omega)]
      rw [imgRows_length]
      have hidx : y * img.width + x - y * img.width = x := by omega
      rw [hidx]
      exact rowData_getElem? img y hx

lemma getdata_getElem? (img : Img) {x y : Nat} (hx : x < img.width) (hy : y < img.height) :
    (getdata img)[y * img.width + x]? = some (img.pix x y) :=
  imgRows_getElem? img hy hx

lemma newData_eq_map (key : Nat × Nat × Nat) (l : List RGBA) :
    newData key l = l.map (fun p => if rgb3 p = key then transparent else p) := by
  induction l with
  | nil => rfl
  | cons p rest ih => simp [newData, ih]

lemma processImg_pix (key : Nat × Nat × Nat) (img : Img) {x y : Nat}
    (hx : x < img.width) (hy : y < img.height) :
    (processImg key img).pix x y =
      (if rgb3 (img.pix x y) = key then transparent else img.pix x y) := by
  show (newData key (getdata img)).getD (y * img.width + x) transparent = _
  have hgetD : ∀ (l : List RGBA) (i : Nat) (d : RGBA), l.getD i d = (l[i]?).getD d := by
    intro l i d; simp [List.getD]
  rw [newData_eq_map, hgetD, List.getElem?_map, getdata_getElem? img hx hy]
  rfl

lemma pastedOf_width (cfg : Cfg) (img : Img) : (pastedOf cfg img).width = img.width := by
  unfold pastedOf
  rcases cfg.process_colorkey <;> rcases cfg.colorkey <;> rfl

lemma pastedOf_height (cfg : Cfg) (img : Img) : (pastedOf cfg img).height = img.height := by
  unfold pastedOf
  rcases cfg.process_colorkey <;> rcases cfg.colorkey <;> rfl

/-- C3: with chroma-keying requested and a colorkey configured, the image
that reaches the paste keeps its dimensions, every pixel whose RGB part is
exactly the key (whatever its alpha) becomes `(0, 0, 0, 0)`, and every
other pixel is passed through unchanged — exact equality, no tolerance. -/
theorem chroma_key_exact_match (cfg : Cfg) (k : Nat × Nat × Nat) (img : Img) (x y : Nat)
    (hk : cfg.process_colorkey = true) (hck : cfg.colorkey = some k)
    (hx : x < img.width) (hy : y < img.height) :
    (pastedOf cfg img).width = img.width ∧ (pastedOf cfg img).height = img.height ∧
    (rgb3 (img.pix x y) = k → (pastedOf cfg img).pix x y = transparent) ∧
    (rgb3 (img.pix x y) ≠ k → (pastedOf cfg img).pix x y = img.pix x y) := by
  have hp : pastedOf cfg img = processImg k img := by
    unfold pastedOf; rw [hk, hck]
  rw [hp]
  refine ⟨rfl, rfl, ?_, ?_⟩
  · intro he; rw [processImg_pix k img hx hy, if_pos he]
  · intro he; rw [processImg_pix k img hx hy, if_neg he]

theorem chroma_key_exact_match_witness :
    (pastedOf cfgKey imgKey).pix 0 0 = transparent ∧
    (pastedOf cfgKey imgKey).pix 1 0 = imgKey.pix 1 0 :=
  ⟨(chroma_key_exact_match cfgKey (255, 0, 228) imgKey 0 0 rfl rfl
      (by decide) (by decide)).2.2.1 (by decide),
   (chroma_key_exact_match cfgKey (255, 0, 228) imgKey 1 0 rfl rfl
      (by decide) (by decide)).2.2.2 (by decide)⟩

/-! Canvas dimensions are unchanged by pasting. -/

lemma stepImage_width (cfg : Cfg) (s : Nat) (fR : Option Img) (k : Nat)
    (f : String × Img) (c : Img) : (stepImage cfg s fR k f c).1.width = c.width := by
  cases fR <;> rfl

lemma stepImage_height (cfg : Cfg) (s : Nat) (fR : Option Img) (k : Nat)
    (f : String × Img) (c : Img) : (stepImage cfg s fR k f c).1.height = c.height := by
  cases fR <;> rfl

lemma runLoop_width (cfg : Cfg) (s : Nat) (fR : Option Img) :
    ∀ (l : List (String × Img)) (k : Nat) (c : Img),
    (runLoop cfg s fR k l c).1.width = c.width := by
  intro l
  induction l with
  | nil => intro k c; rfl
  | cons f rest ih =>
    intro k c
    show (runLoop cfg s fR (k + 1) rest (stepImage cfg s fR k f c).1).1.width = c.width
    rw [ih (k + 1) (stepImage cfg s fR k f c).1, stepImage_width]

lemma runLoop_height (cfg : Cfg) (s : Nat) (fR : Option Img) :
    ∀ (l : List (String × Img)) (k : Nat) (c : Img),
    (runLoop cfg s fR k l c).1.height = c.height := by
  intro l
  induction l with
  | nil => intro k c; rfl
  | cons f rest ih =>
    intro k c
    show (runLoop cfg s fR (k + 1) rest (stepImage cfg s fR k f c).1).1.height = c.height
    rw [ih (k + 1) (stepImage cfg s fR k f c).1, stepImage_height]

/-- C5: the composed canvas keeps the allocated dimensions
`(cell_size * grid_cols, cell_size * grid_rows)` — sparse or full — and
the allocated canvas is fully transparent before any paste. -/
theorem canvas_dimensions_and_transparency (cfg : Cfg)
    (h0 : 0 < (sortFiles cfg.dirFiles).length)
    (hcap : (sortFiles cfg.dirFiles).length ≤ cfg.grid_rows * cfg.grid_cols) :
    (composed cfg).width = maxImageSize (sortFiles cfg.dirFiles) * cfg.grid_cols ∧
    (composed cfg).height = maxImageSize (sortFiles cfg.dirFiles) * cfg.grid_rows ∧
    (∀ x y : Nat,
      (mkCanvas (maxImageSize (sortFiles cfg.dirFiles) * cfg.grid_cols)
        (maxImageSize (sortFiles cfg.dirFiles) * cfg.grid_rows)).pix x y = transparent) := by
  refine ⟨?_, ?_, fun x y => rfl⟩
  · show (runLoop cfg _ _ 0 _ _).1.width = _
    rw [runLoop_width]; rfl
  · show (runLoop cfg _ _ 0 _ _).1.height = _
    rw [runLoop_height]; rfl

theorem canvas_dimensions_and_transparency_witness :
    0 < (sortFiles cfgOne.dirFiles).length ∧
    (composed cfgOne).width = maxImageSize (sortFiles cfgOne.dirFiles) * cfgOne.grid_cols ∧
    (composed cfgOne).height = maxImageSize (sortFiles cfgOne.dirFiles) * cfgOne.grid_rows ∧
    (∀ x y : Nat,
      (mkCanvas (maxImageSize (sortFiles cfgOne.dirFiles) * cfgOne.grid_cols)
        (maxImageSize (sortFiles cfgOne.dirFiles) * cfgOne.grid_rows)).pix x y = transparent) :=
  ⟨by decide, canvas_dimensions_and_transparency cfgOne (by decide) (by decide)⟩

/-! Correctness of the model's lexicographic path sort. -/

lemma lexLt_irrefl (a : List Char) : lexLt a a = false := by
  induction a with
  | nil => rfl
  | cons c as ih => simp [lexLt, Nat.lt_irrefl, ih]

lemma lexLt_asymm : ∀ {a b : List Char}, lexLt a b = true → lexLt b a = false := by
  intro a
  induction a with
  | nil =>
    intro b h
    cases b with
    | nil => simp [lexLt] at h
    | cons d bs => rfl
  | cons c as ih =>
    intro b h
    cases b with
    | nil => simp [lexLt] at h
    | cons d bs =>
      rcases Nat.lt_trichotomy c.toNat d.toNat with hcd | hcd | hcd
      · simp [lexLt, Nat.lt_asymm hcd, Nat.ne_of_lt hcd, hcd]
      · simp only [lexLt, hcd, Nat.lt_irrefl, if_false] at h ⊢
        exact ih h
      · simp [lexLt, hcd, Nat.lt_asymm hcd] at h

lemma lexLt_trans : ∀ {a b c : List Char},
    lexLt a b = true → lexLt b c = true → lexLt a c = true := by
  intro a
  induction a with
  | nil =>
    intro b c hab hbc
    cases b with
    | nil => simp [lexLt] at hab
    | cons d bs =>
      cases c with
      | nil => simp [lexLt] at hbc
      | cons e cs => rfl
  | cons x as ih =>
    intro b c hab hbc
    cases b with
    | nil => simp [lexLt] at hab
    | cons d bs =>
      cases c with
      | nil => simp [lexLt] at hbc
      | cons e cs =>
        rcases Nat.lt_trichotomy x.toNat d.toNat with hxd | hxd | hxd
        · rcases Nat.lt_trichotomy d.toNat e.toNat with hde | hde | hde
          · simp [lexLt, Nat.lt_trans hxd hde]
          · have hxe : x.toNat < e.toNat := by omega
            simp [lexLt, hxe]
          · simp [lexLt, hde, Nat.lt_asymm hde] at hbc
        · have h1 : ¬ x.toNat < d.toNat := by omega
          have h2 : ¬ d.toNat < x.toNat := by omega
          simp only [lexLt, h1, h2, if_false] at hab
          rcases Nat.lt_trichotomy d.toNat e.toNat with hde | hde | hde
          · have hxe : x.toNat < e.toNat := by omega
            simp [lexLt, hxe]
          · have h3 : ¬ x.toNat < e.toNat := by omega
            have h4 : ¬ e.toNat < x.toNat := by omega
            have h5 : ¬ d.toNat < e.toNat := by omega
            have h6 : ¬ e.toNat < d.toNat := by omega
            simp only [lexLt, h5, h6, if_false] at hbc
            simp only [lexLt, h3, h4, if_false]
            exact ih hab hbc
          · simp [lexLt, hde, Nat.lt_asymm hde] at hbc
        · simp [lexLt, hxd, Nat.lt_asymm hxd] at hab

lemma lexLt_eq_of_not_lt : ∀ {a b : List Char},
    lexLt a b = false → lexLt b a = false → a = b := by
  intro a
  induction a with
  | nil =>
    intro b hab _
    cases b with
    | nil => rfl
    | cons d bs => simp [lexLt] at hab
  | cons x as ih =>
    intro b hab hba
    cases b with
    | nil => simp [lexLt] at hba
    | cons d bs =>
      rcases Nat.lt_trichotomy x.toNat d.toNat with hxd | hxd | hxd
      · simp [lexLt, hxd] at hab
      · have h1 : ¬ x.toNat < d.toNat := by omega
        have h2 : ¬ d.toNat < x.toNat := by omega
        simp only [lexLt, h1, h2, if_false] at hab hba
        have hc : x = d := by
          apply Char.eq_of_val_eq
          apply UInt32.eq_of_toBitVec_eq
          exact BitVec.eq_of_toNat_eq hxd
        rw [hc, ih hab hba]
      · simp [lexLt, hxd] at hba

lemma pathLe_total {a b : String} (h : pathLe a b = false) : pathLe b a = true := by
  unfold pathLe at h ⊢
  have hlt : lexLt b.data a.data = true := by
    rcases hb : lexLt b.data a.data with _ | _
    · rw [hb] at h; simp at h
    · rfl
  rw [lexLt_asymm hlt]
  rfl

lemma pathLe_trans {a b c : String}
    (hab : pathLe a b = true) (hbc : pathLe b c = true) : pathLe a c = true := by
  unfold pathLe at hab hbc ⊢
  have hba : lexLt b.data a.data = false := by
    rcases hb : lexLt b.data a.data with _ | _
    · rfl
    · rw [hb] at hab; simp at hab
  have hcb : lexLt c.data b.data = false := by
    rcases hb : lexLt c.data b.data with _ | _
    · rfl
    · rw [hb] at hbc; simp at hbc
  rcases hca : lexLt c.data a.data with _ | _
  · rfl
  · exfalso
    rcases hbc2 : lexLt b.data c.data with _ | _
    · have hbceq : b.data = c.data := lexLt_eq_of_not_lt hbc2 hcb
      rw [hbceq] at hba
      rw [hca] at hba
      simp at hba
    · have : lexLt b.data a.data = true := lexLt_trans hbc2 hca
      rw [this] at hba
      simp at hba

lemma fileLe_trans {a b c : String × Img} (hab : fileLe a b) (hbc : fileLe b c) :
    fileLe a c := pathLe_trans hab hbc

lemma insertFile_perm (p : String × Img) (l : List (String × Img)) :
    List.Perm (insertFile p l) (p :: l) := by
  induction l with
  | nil => exact List.Perm.refl _
  | cons q rest ih =>
    unfold insertFile
    by_cases h : pathLe p.1 q.1
    · rw [if_pos h]
    · rw [if_neg h]
      exact (ih.cons q).trans (List.Perm.swap p q rest)

lemma sortFiles_perm (l : List (String × Img)) : List.Perm (sortFiles l) l := by
  induction l with
  | nil => exact List.Perm.refl _
  | cons p rest ih => exact (insertFile_perm p (sortFiles rest)).trans (ih.cons p)

lemma insertFile_sorted (p : String × Img) {l : List (String × Img)}
    (hs : List.Sorted fileLe l) : List.Sorted fileLe (insertFile p l) := by
  induction l with
  | nil => simp [insertFile]
  | cons q rest ih =>
    rw [List.sorted_cons] at hs
    unfold insertFile
    by_cases h : pathLe p.1 q.1
    · rw [if_pos h]
      rw [List.sorted_cons]
      refine ⟨?_, List.sorted_cons.mpr hs⟩
      intro b hb
      rcases List.mem_cons.mp hb with hb | hb
      · subst hb; exact h
      · exact fileLe_trans h (hs.1 b hb)
    · rw [if_neg h]
      have hqp : fileLe q p := pathLe_total (by
        rcases hpq : pathLe p.1 q.1 with _ | _
        · rfl
        · exact absurd hpq h)
      rw [List.sorted_cons]
      refine ⟨?_, ih hs.2⟩
      intro b hb
      have hb' : b ∈ p :: rest := (insertFile_perm p rest).mem_iff.mp hb
      rcases List.mem_cons.mp hb' with hb2 | hb2
      · subst hb2; exact hqp
      · exact hs.1 b hb2

lemma sortFiles_sorted (l : List (String × Img)) : List.Sorted fileLe (sortFiles l) := by
  induction l with
  | nil => simp [sortFiles]
  | cons p rest ih => exact insertFile_sorted p ih

/-! The paste events of the loop, in order. -/

lemma stepImage_filter (cfg : Cfg) (s : Nat) (fR : Option Img) (k : Nat)
    (f : String × Img) (c : Img) :
    (stepImage cfg s fR k f c).2.filter isPasteImage =
      [Ev.pasteImage k f.1 ((k % cfg.grid_cols) * s) ((k / cfg.grid_cols) * s)] := by
  cases fR <;> rfl

lemma runLoop_filter (cfg : Cfg) (s : Nat) (fR : Option Img) :
    ∀ (l : List (String × Img)) (k : Nat) (c : Img) (j : Nat),
    ((runLoop cfg s fR k l c).2.filter isPasteImage)[j]? =
      (l[j]?).map (fun f => Ev.pasteImage (k + j) f.1
        (((k + j) % cfg.grid_cols) * s) (((k + j) / cfg.grid_cols) * s)) := by
  intro l
  induction l with
  | nil => intro k c j; simp [runLoop]
  | cons f rest ih =>
    intro k c j
    show (((stepImage cfg s fR k f c).2 ++
        (runLoop cfg s fR (k + 1) rest (stepImage cfg s fR k f c).1).2).filter
          isPasteImage)[j]? = _
    rw [List.filter_append, stepImage_filter]
    cases j with
    | zero => simp
    | succ j =>
      rw [List.singleton_append, List.getElem?_cons_succ, ih]
      have hk : k + 1 + j = k + (j + 1) := by omega
      rw [hk, List.getElem?_cons_succ]

lemma stitch_trace_filter (cfg : Cfg)
    (hg : (cfg.outputExists && (strLower cfg.response != "y")) = false)
    (hcap : (sortFiles cfg.dirFiles).length ≤ cfg.grid_rows * cfg.grid_cols) :
    (stitch_images cfg).2.filter isPasteImage =
      (loopResult cfg).2.filter isPasteImage := by
  unfold stitch_images
  rw [hg]
  simp only [Bool.false_eq_true, if_false]
  by_cases h0 : (sortFiles cfg.dirFiles).length = 0
  · rw [if_pos h0]
    have hempty : sortFiles cfg.dirFiles = [] := List.length_eq_zero.mp h0
    show (if cfg.outputExists then [Ev.removeOutput] else []).filter isPasteImage = _
    unfold loopResult
    rw [hempty]
    cases h : cfg.outputExists <;> rfl
  · rw [if_neg h0, if_neg (by omega)]
    by_cases hd : dirname cfg.output = ""
    · rw [if_pos hd]
      cases h : cfg.outputExists <;>
        simp [List.filter_append, isPasteImage]
    · rw [if_neg hd]
      by_cases hr : cfg.reduce
      · rw [if_pos hr]
        cases h : cfg.outputExists <;>
          simp [List.filter_append, isPasteImage]
      · rw [if_neg hr]
        cases h : cfg.outputExists <;>
          simp [List.filter_append, isPasteImage]

/-- C2: the model's file list is the lexicographic sort of the directory
contents (sorted, and a permutation of them), and the run's `i`-th
source-image paste event — for the file at sorted index `i` — is at pixel
offset `((i mod cols) * cell_size, (i div cols) * cell_size)`: row-major,
no gaps, no reordering. -/
theorem row_major_placement (cfg : Cfg)
    (hg : (cfg.outputExists && (strLower cfg.response != "y")) = false)
    (hcap : (sortFiles cfg.dirFiles).length ≤ cfg.grid_rows * cfg.grid_cols)
    (i : Nat) (f : String × Img) (hf : (sortFiles cfg.dirFiles)[i]? = some f) :
    List.Sorted fileLe (sortFiles cfg.dirFiles) ∧
    List.Perm (sortFiles cfg.dirFiles) cfg.dirFiles ∧
    ((stitch_images cfg).2.filter isPasteImage)[i]? =
      some (Ev.pasteImage i f.1
        ((i % cfg.grid_cols) * maxImageSize (sortFiles cfg.dirFiles))
        ((i / cfg.grid_cols) * maxImageSize (sortFiles cfg.dirFiles))) := by
  refine ⟨sortFiles_sorted _, sortFiles_perm _, ?_⟩
  rw [stitch_trace_filter cfg hg hcap]
  unfold loopResult
  rw [runLoop_filter, hf]
  simp

theorem row_major_placement_witness :
    List.Sorted fileLe (sortFiles cfgTwo.dirFiles) ∧
    List.Perm (sortFiles cfgTwo.dirFiles) cfgTwo.dirFiles ∧
    ((stitch_images cfgTwo).2.filter isPasteImage)[1]? =
      some (Ev.pasteImage 1 "b.png"
        ((1 % cfgTwo.grid_cols) * maxImageSize (sortFiles cfgTwo.dirFiles))
        ((1 / cfgTwo.grid_cols) * maxImageSize (sortFiles cfgTwo.dirFiles))) :=
  row_major_placement cfgTwo (by decide) (by decide) 1 ("b.png", imgA) (by rfl)

/-! Geometry of the grid: a paste at one index never touches another
index's cell, and the paste at an index lays fill below source. -/

lemma cell_miss {cols s i m X Y : Nat} (hne : m ≠ i)
    (hX1 : (i % cols) * s ≤ X) (hX2 : X < (i % cols) * s + s)
    (hY1 : (i / cols) * s ≤ Y) (hY2 : Y < (i / cols) * s + s) :
    X < (m % cols) * s ∨ (m % cols) * s + s ≤ X ∨
    Y < (m / cols) * s ∨ (m / cols) * s + s ≤ Y := by
  rcases Nat.lt_trichotomy (m % cols) (i % cols) with h | h | h
  · right; left
    calc (m % cols) * s + s = (m % cols + 1) * s := by ring
      _ ≤ (i % cols) * s := Nat.mul_le_mul_right s (by omega)
      _ ≤ X := hX1
  · rcases Nat.lt_trichotomy (m / cols) (i / cols) with h2 | h2 | h2
    · right; right; right
      calc (m / cols) * s + s = (m / cols + 1) * s := by ring
        _ ≤ (i / cols) * s := Nat.mul_le_mul_right s (by omega)
        _ ≤ Y := hY1
    · exfalso
      apply hne
      have hm := Nat.div_add_mod m cols
      have hi := Nat.div_add_mod i cols
      rw [h, h2] at hm
      omega
    · right; right; left
      calc Y < (i / cols) * s + s := hY2
        _ = (i / cols + 1) * s := by ring
        _ ≤ (m / cols) * s := Nat.mul_le_mul_right s (by omega)
  · left
    calc X < (i % cols) * s + s := hX2
      _ = (i % cols + 1) * s := by ring
      _ ≤ (m % cols) * s := Nat.mul_le_mul_right s (by omega)

lemma stepImage_pix_miss (cfg : Cfg) (s : Nat) (fR : Option Img) (m : Nat)
    (f : String × Img) (c : Img) (X Y : Nat)
    (hw : f.2.width ≤ s) (hh : f.2.height ≤ s)
    (hfr : ∀ fr, fR = some fr → fr.width = s ∧ fr.height = s)
    (hmiss : X < (m % cfg.grid_cols) * s ∨ (m % cfg.grid_cols) * s + s ≤ X ∨
      Y < (m / cfg.grid_cols) * s ∨ (m / cfg.grid_cols) * s + s ≤ Y) :
    (stepImage cfg s fR m f c).1.pix X Y = c.pix X Y := by
  have hw' : (pastedOf cfg f.2).width ≤ s := by rw [pastedOf_width]; exact hw
  have hh' : (pastedOf cfg f.2).height ≤ s := by rw [pastedOf_height]; exact hh
  cases fR with
  | none =>
    show (pasteMask c (pastedOf cfg f.2)
        ((m % cfg.grid_cols) * s) ((m / cfg.grid_cols) * s)).pix X Y = c.pix X Y
    simp only [pasteMask]
    rw [if_neg]
    rintro ⟨h1, h2, h3, h4⟩
    omega
  | some fr =>
    obtain ⟨hfw, hfh⟩ := hfr fr rfl
    show (pasteMask (pasteFull c fr ((m % cfg.grid_cols) * s) ((m / cfg.grid_cols) * s))
        (pastedOf cfg f.2)
        ((m % cfg.grid_cols) * s) ((m / cfg.grid_cols) * s)).pix X Y = c.pix X Y
    simp only [pasteMask, pasteFull]
    rw [if_neg, if_neg]
    · rintro ⟨h1, h2, h3, h4⟩
      omega
    · rintro ⟨h1, h2, h3, h4⟩
      omega

lemma runLoop_pix_miss (cfg : Cfg) (s : Nat) (fR : Option Img) (i X Y : Nat)
    (hX1 : (i % cfg.grid_cols) * s ≤ X) (hX2 : X < (i % cfg.grid_cols) * s + s)
    (hY1 : (i / cfg.grid_cols) * s ≤ Y) (hY2 : Y < (i / cfg.grid_cols) * s + s)
    (hfr : ∀ fr, fR = some fr → fr.width = s ∧ fr.height = s) :
    ∀ (l : List (String × Img)) (k : Nat) (c : Img),
    (∀ g ∈ l, g.2.width ≤ s ∧ g.2.height ≤ s) →
    (∀ m, k ≤ m → m < k + l.length → m ≠ i) →
    (runLoop cfg s fR k l c).1.pix X Y = c.pix X Y := by
  intro l
  induction l with
  | nil => intro k c _ _; rfl
  | cons g rest ih =>
    intro k c hd hidx
    show (runLoop cfg s fR (k + 1) rest (stepImage cfg s fR k g c).1).1.pix X Y = c.pix X Y
    rw [ih (k + 1) (stepImage cfg s fR k g c).1
      (fun g' hg' => hd g' (List.mem_cons_of_mem g hg'))
      (fun m h1 h2 => hidx m (by omega) (by simp only [List.length_cons]; omega))]
    have hki : k ≠ i := hidx k le_rfl (by simp only [List.length_cons]; omega)
    exact stepImage_pix_miss cfg s fR k g c X Y
      (hd g (List.mem_cons_self g rest)).1 (hd g (List.mem_cons_self g rest)).2 hfr
      (cell_miss hki hX1 hX2 hY1 hY2)

lemma blend_255 (v d : Nat) : blend 255 v d = v := by
  unfold blend
  rw [Nat.sub_self, Nat.mul_zero, Nat.add_zero]
  omega

lemma blend_0 (v d : Nat) : blend 0 v d = d := by
  unfold blend
  rw [Nat.sub_zero, Nat.mul_zero, Nat.zero_add]
  omega

lemma overPix_alpha255 {sp : RGBA} (dp : RGBA) (h : alphaOf sp = 255) :
    overPix sp dp = sp := by
  unfold overPix
  rw [h, blend_255, blend_255, blend_255, blend_255]

lemma overPix_alpha0 {sp : RGBA} (dp : RGBA) (h : alphaOf sp = 0) :
    overPix sp dp = dp := by
  unfold overPix
  rw [h, blend_0, blend_0, blend_0, blend_0]

lemma stepImage_pix_hit_fill (cfg : Cfg) (s : Nat) (fr : Img) (i : Nat)
    (f : String × Img) (c : Img) (x y : Nat)
    (hx : x < f.2.width) (hy : y < f.2.height)
    (hw : f.2.width ≤ s) (hh : f.2.height ≤ s)
    (hfw : fr.width = s) (hfh : fr.height = s) :
    (stepImage cfg s (some fr) i f c).1.pix
        ((i % cfg.grid_cols) * s + x) ((i / cfg.grid_cols) * s + y) =
      overPix ((pastedOf cfg f.2).pix x y) (fr.pix x y) := by
  show (pasteMask (pasteFull c fr ((i % cfg.grid_cols) * s) ((i / cfg.grid_cols) * s))
      (pastedOf cfg f.2)
      ((i % cfg.grid_cols) * s) ((i / cfg.grid_cols) * s)).pix
      ((i % cfg.grid_cols) * s + x) ((i / cfg.grid_cols) * s + y) = _
  simp only [pasteMask, pasteFull]
  rw [if_pos, if_pos]
  · rw [Nat.add_sub_cancel_left, Nat.add_sub_cancel_left]
  · refine ⟨Nat.le_add_right _ _, ?_, Nat.le_add_right _ _, ?_⟩ <;> omega
  · rw [pastedOf_width, pastedOf_height]
    refine ⟨Nat.le_add_right _ _, ?_, Nat.le_add_right _ _, ?_⟩ <;> omega

lemma runLoop_pix_at (cfg : Cfg) (s : Nat) (fr : Img) (i : Nat) (f : String × Img)
    (x y : Nat) (hx : x < f.2.width) (hy : y < f.2.height)
    (hfw : fr.width = s) (hfh : fr.height = s) :
    ∀ (l : List (String × Img)) (k : Nat) (c : Img) (j : Nat),
    l[j]? = some f → k + j = i →
    (∀ g ∈ l, g.2.width ≤ s ∧ g.2.height ≤ s) →
    (runLoop cfg s (some fr) k l c).1.pix
        ((i % cfg.grid_cols) * s + x) ((i / cfg.grid_cols) * s + y) =
      overPix ((pastedOf cfg f.2).pix x y) (fr.pix x y) := by
  intro l
  induction l with
  | nil => intro k c j hj _ _; simp at hj
  | cons g rest ih =>
    intro k c j hj hk hd
    cases j with
    | zero =>
      rw [List.getElem?_cons_zero, Option.some.injEq] at hj
      subst hj
      have hk0 : k = i := by omega
      subst hk0
      have hw : g.2.width ≤ s := (hd g (List.mem_cons_self g rest)).1
      have hh : g.2.height ≤ s := (hd g (List.mem_cons_self g rest)).2
      show (runLoop cfg s (some fr) (k + 1) rest
        (stepImage cfg s (some fr) k g c).1).1.pix _ _ = _
      rw [runLoop_pix_miss cfg s (some fr) k
        ((k % cfg.grid_cols) * s + x) ((k / cfg.grid_cols) * s + y)
        (Nat.le_add_right _ _) (by omega) (Nat.le_add_right _ _) (by omega)
        (fun fr' hfr' => by
          rw [Option.some.injEq] at hfr'
          rw [← hfr']
          exact ⟨hfw, hfh⟩)
        rest (k + 1) (stepImage cfg s (some fr) k g c).1
        (fun g' hg' => hd g' (List.mem_cons_of_mem g hg'))
        (fun m h1 h2 => by omega)]
      exact stepImage_pix_hit_fill cfg s fr k g c x y hx hy hw hh hfw hfh
    | succ j =>
      rw [List.getElem?_cons_succ] at hj
      show (runLoop cfg s (some fr) (k + 1) rest
        (stepImage cfg s (some fr) k g c).1).1.pix _ _ = _
      exact ih (k + 1) (stepImage cfg s (some fr) k g c).1 j hj (by omega)
        (fun g' hg' => hd g' (List.mem_cons_of_mem g hg'))

lemma fillR_dims (fill : Option Img) (s : Nat) :
    ∀ fr, (fill.map fun fi => resize fi s s) = some fr → fr.width = s ∧ fr.height = s := by
  intro fr h
  cases fill with
  | none => simp at h
  | some fi =>
    simp only [Option.map_some', Option.some.injEq] at h
    rw [← h]
    exact ⟨rfl, rfl⟩

lemma sorted_dims_le (cfg : Cfg) :
    ∀ g ∈ sortFiles cfg.dirFiles,
      g.2.width ≤ maxImageSize (sortFiles cfg.dirFiles) ∧
      g.2.height ≤ maxImageSize (sortFiles cfg.dirFiles) := by
  intro g hg
  have h := dimMax_le_maxImageSize hg
  exact ⟨le_trans (le_max_left _ _) h, le_trans (le_max_right _ _) h⟩

/-- C4: with a fill image configured, any filled cell shows the pasted
source pixel wherever the pasted source's alpha is 255, and the resized
fill image's pixel wherever that alpha is 0 — the fill is pasted first
(unmasked), the source after it with its own alpha as mask. -/
theorem fill_then_source_layering (cfg : Cfg) (fillImg : Img)
    (hfill : cfg.fill = some fillImg)
    (i : Nat) (f : String × Img) (hf : (sortFiles cfg.dirFiles)[i]? = some f)
    (x y : Nat) (hx : x < f.2.width) (hy : y < f.2.height) :
    (alphaOf ((pastedOf cfg f.2).pix x y) = 255 →
      (composed cfg).pix
          ((i % cfg.grid_cols) * maxImageSize (sortFiles cfg.dirFiles) + x)
          ((i / cfg.grid_cols) * maxImageSize (sortFiles cfg.dirFiles) + y) =
        (pastedOf cfg f.2).pix x y) ∧
    (alphaOf ((pastedOf cfg f.2).pix x y) = 0 →
      (composed cfg).pix
          ((i % cfg.grid_cols) * maxImageSize (sortFiles cfg.dirFiles) + x)
          ((i / cfg.grid_cols) * maxImageSize (sortFiles cfg.dirFiles) + y) =
        (resize fillImg (maxImageSize (sortFiles cfg.dirFiles))
          (maxImageSize (sortFiles cfg.dirFiles))).pix x y) := by
  have hmem : f ∈ sortFiles cfg.dirFiles := List.getElem?_mem hf
  have hcomp : (composed cfg).pix
      ((i % cfg.grid_cols) * maxImageSize (sortFiles cfg.dirFiles) + x)
      ((i / cfg.grid_cols) * maxImageSize (sortFiles cfg.dirFiles) + y) =
      overPix ((pastedOf cfg f.2).pix x y)
        ((resize fillImg (maxImageSize (sortFiles cfg.dirFiles))
          (maxImageSize (sortFiles cfg.dirFiles))).pix x y) := by
    simp only [composed, loopResult, hfill, Option.map_some']
    exact runLoop_pix_at cfg (maxImageSize (sortFiles cfg.dirFiles))
      (resize fillImg (maxImageSize (sortFiles cfg.dirFiles))
        (maxImageSize (sortFiles cfg.dirFiles)))
      i f x y hx hy rfl rfl (sortFiles cfg.dirFiles) 0 _ i hf (by omega)
      (sorted_dims_le cfg)
  exact ⟨fun ha => by rw [hcomp, overPix_alpha255 _ ha],
    fun ha => by rw [hcomp, overPix_alpha0 _ ha]⟩

theorem fill_then_source_layering_witness :
    (composed cfgFill).pix
        ((0 % cfgFill.grid_cols) * maxImageSize (sortFiles cfgFill.dirFiles) + 0)
        ((0 / cfgFill.grid_cols) * maxImageSize (sortFiles cfgFill.dirFiles) + 0) =
      (pastedOf cfgFill imgHalf).pix 0 0 ∧
    (composed cfgFill).pix
        ((0 % cfgFill.grid_cols) * maxImageSize (sortFiles cfgFill.dirFiles) + 1)
        ((0 / cfgFill.grid_cols) * maxImageSize (sortFiles cfgFill.dirFiles) + 0) =
      (resize imgFill (maxImageSize (sortFiles cfgFill.dirFiles))
        (maxImageSize (sortFiles cfgFill.dirFiles))).pix 1 0 :=
  ⟨(fill_then_source_layering cfgFill imgFill rfl 0 ("a.png", imgHalf) rfl 0 0
      (by decide) (by decide)).1 (by decide),
   (fill_then_source_layering cfgFill imgFill rfl 0 ("a.png", imgHalf) rfl 1 0
      (by decide) (by decide)).2 (by decide)⟩

/-! The fill paste happens only inside the per-image loop. -/

lemma stepImage_fill_mem (cfg : Cfg) (s : Nat) (fR : Option Img) (k : Nat)
    (f : String × Img) (c : Img) (m xx yy : Nat)
    (h : Ev.pasteFill m xx yy ∈ (stepImage cfg s fR k f c).2) : m = k := by
  cases fR with
  | none => simp [stepImage] at h
  | some fr =>
    simp only [stepImage, List.mem_cons, List.mem_singleton] at h
    rcases h with h | h | h
    · exact (Ev.pasteFill.injEq _ _ _ _ _ _).mp h |>.1
    · simp at h
    · simp at h

lemma runLoop_fill_mem (cfg : Cfg) (s : Nat) (fR : Option Img) :
    ∀ (l : List (String × Img)) (k : Nat) (c : Img) (m xx yy : Nat),
    Ev.pasteFill m xx yy ∈ (runLoop cfg s fR k l c).2 → k ≤ m ∧ m < k + l.length := by
  intro l
  induction l with
  | nil => intro k c m xx yy h; simp [runLoop] at h
  | cons g rest ih =>
    intro k c m xx yy h
    have hsplit : Ev.pasteFill m xx yy ∈ (stepImage cfg s fR k g c).2 ∨
        Ev.pasteFill m xx yy ∈
          (runLoop cfg s fR (k + 1) rest (stepImage cfg s fR k g c).1).2 :=
      List.mem_append.mp h
    rcases hsplit with h' | h'
    · have := stepImage_fill_mem cfg s fR k g c m xx yy h'
      simp only [List.length_cons]
      omega
    · have := ih (k + 1) (stepImage cfg s fR k g c).1 m xx yy h'
      simp only [List.length_cons]
      omega

lemma stitch_pasteFill_mem (cfg : Cfg) (m xx yy : Nat)
    (h : Ev.pasteFill m xx yy ∈ (stitch_images cfg).2) :
    Ev.pasteFill m xx yy ∈ (loopResult cfg).2 := by
  simp only [stitch_images] at h
  split at h
  · simp at h
  · split at h
    · revert h
      split <;> intro h <;> simp at h
    · split at h
      · revert h
        split <;> intro h <;> simp at h
      · split at h
        · revert h
          cases he0 : cfg.outputExists <;> intro h <;>
            simp at h <;> exact h
        · split at h <;> revert h <;>
            cases he0 : cfg.outputExists <;> intro h <;>
              simp at h <;> exact h

lemma stitch_fill_mem (cfg : Cfg) (m xx yy : Nat)
    (h : Ev.pasteFill m xx yy ∈ (stitch_images cfg).2) :
    m < (sortFiles cfg.dirFiles).length := by
  have h1 := stitch_pasteFill_mem cfg m xx yy h
  simp only [loopResult] at h1
  have h2 := runLoop_fill_mem cfg _ _ (sortFiles cfg.dirFiles) 0 _ m xx yy h1
  omega

/-- C6: in a sparse grid every trailing cell — index at least the image
count — stays fully transparent in the composed canvas, and no fill paste
ever targets an index beyond the image count, because fill pasting only
happens inside the per-image loop. -/
theorem sparse_grid_trailing_cells (cfg : Cfg) (j x y : Nat)
    (hj : (sortFiles cfg.dirFiles).length ≤ j)
    (hjc : j < cfg.grid_rows * cfg.grid_cols)
    (hx : x < maxImageSize (sortFiles cfg.dirFiles))
    (hy : y < maxImageSize (sortFiles cfg.dirFiles)) :
    (composed cfg).pix
        ((j % cfg.grid_cols) * maxImageSize (sortFiles cfg.dirFiles) + x)
        ((j / cfg.grid_cols) * maxImageSize (sortFiles cfg.dirFiles) + y) = transparent ∧
    (∀ m xx yy, Ev.pasteFill m xx yy ∈ (stitch_images cfg).2 →
      m < (sortFiles cfg.dirFiles).length) := by
  refine ⟨?_, fun m xx yy hm => stitch_fill_mem cfg m xx yy hm⟩
  simp only [composed, loopResult]
  rw [runLoop_pix_miss cfg (maxImageSize (sortFiles cfg.dirFiles))
    (cfg.fill.map fun fi => resize fi (maxImageSize (sortFiles cfg.dirFiles))
      (maxImageSize (sortFiles cfg.dirFiles))) j
    ((j % cfg.grid_cols) * maxImageSize (sortFiles cfg.dirFiles) + x)
    ((j / cfg.grid_cols) * maxImageSize (sortFiles cfg.dirFiles) + y)
    (Nat.le_add_right _ _) (by omega) (Nat.le_add_right _ _) (by omega)
    (fillR_dims cfg.fill _) (sortFiles cfg.dirFiles) 0 _
    (sorted_dims_le cfg) (fun m h1 h2 => by omega)]
  rfl

theorem sparse_grid_trailing_cells_witness :
    (sortFiles cfgOne.dirFiles).length ≤ 5 ∧
    (composed cfgOne).pix
        ((5 % cfgOne.grid_cols) * maxImageSize (sortFiles cfgOne.dirFiles) + 0)
        ((5 / cfgOne.grid_cols) * maxImageSize (sortFiles cfgOne.dirFiles) + 0) = transparent ∧
    (∀ m xx yy, Ev.pasteFill m xx yy ∈ (stitch_images cfgOne).2 →
      m < (sortFiles cfgOne.dirFiles).length) :=
  ⟨by decide, sparse_grid_trailing_cells cfgOne 5 0 0
    (by decide) (by decide) (by decide) (by decide)⟩

end ImageStitch
